import Mathlib

/-!
Verification of the centauri light-client finality core against its
natural-language specification.

The Rust sources are embedded shallowly: machine integers become `Nat`
(with an explicit `% 2 ^ w` where a narrowing cast occurs), fallible code
returns `Except`/`Option`, and a reachable Rust panic (`unwrap`,
`unreachable!`) is a distinguished outcome of `RustResult`.  Byte strings,
addresses and hashes are abstracted to `Nat`/`List Nat`; this preserves
every comparison the code performs (the code only tests them for
equality).  External cryptographic primitives (ed25519/ECDSA signature
verification, merkle-proof checking) are taken as boolean-valued
parameters, mirroring the host-function/`Verifier` type parameters of the
Rust code.
-/

deriving instance DecidableEq for Except

namespace Centauri

/-- Outcome of a Rust computation that can panic (an `unwrap` or an
`unreachable!` that fires), return a typed error, or succeed. -/
inductive RustResult (ε α : Type) where
  | panicked
  | err (e : ε)
  | ok (a : α)
deriving DecidableEq

/-- Errors of the ics07-tendermint light client (the crate's `Error`
type); only the constructors exercised by the embedded code appear. -/
inductive TmError where
  | validation (msg : String)
  | missing_signed_header
  | missing_validator_set
  | missing_trusted_height
  | missing_trusted_validator_set
deriving DecidableEq

/-- tendermint `PublicKey`: Ed25519 keys carry their bytes, every other
variant is collapsed into one constructor (`get_zk_input` only inspects
the Ed25519 case). -/
inductive PublicKey where
  | ed25519 (bytes : List Nat)
  | other
deriving DecidableEq

/-- tendermint `validator::Info` restricted to the fields the embedded
code reads. -/
structure ValidatorInfo where
  address : Nat
  pub_key : PublicKey
  power : Nat
deriving DecidableEq

/-- tendermint `validator::Set`. -/
structure ValidatorSet where
  validators : List ValidatorInfo
deriving DecidableEq

/-- tendermint `Set::validator(address)`: lookup by address. -/
def ValidatorSet.validator (vs : ValidatorSet) (address : Nat) : Option ValidatorInfo :=
  vs.validators.find? (fun x => x.address == address)

/-- tendermint `Set::total_voting_power()`: the sum of the validators'
voting powers. -/
def ValidatorSet.total_voting_power (vs : ValidatorSet) : Nat :=
  (vs.validators.map (fun v => v.power)).sum

/-- tendermint `block::CommitSig`. -/
inductive CommitSig where
  | absent
  | commit (validator_address : Nat) (timestamp : Nat) (signature : Option (List Nat))
  | nil (validator_address : Nat) (timestamp : Nat) (signature : Option (List Nat))
deriving DecidableEq

/-- `CommitSig::is_commit()`. -/
def CommitSig.is_commit : CommitSig → Bool
  | .commit _ _ _ => true
  | _ => false

/-- Validator address carried by a non-absent commit signature. -/
def CommitSig.addr? : CommitSig → Option Nat
  | .absent => none
  | .commit a _ _ => some a
  | .nil a _ _ => some a

/-- True when a non-absent commit signature actually carries a signature
(absent entries vacuously qualify). -/
def CommitSig.sigPresent : CommitSig → Bool
  | .absent => true
  | .commit _ _ s => s.isSome
  | .nil _ _ s => s.isSome

/-- tendermint `block::Commit`. -/
structure Commit where
  height : Nat
  round : Nat
  block_id : Nat
  signatures : List CommitSig
deriving DecidableEq

/-- tendermint `block::Header` restricted to the fields the embedded code
reads (`chain_id`, `height`, `time`). -/
structure TmBlockHeader where
  chain_id : Nat
  height : Nat
  time : Nat
deriving DecidableEq

/-- tendermint `block::signed_header::SignedHeader`. -/
structure SignedHeader where
  header : TmBlockHeader
  commit : Commit
deriving DecidableEq

/-- ics07 `Header` (client_message.rs:150-157). -/
structure IbcHeight where
  revision_number : Nat
  revision_height : Nat
deriving DecidableEq

structure Header where
  signed_header : SignedHeader
  validator_set : ValidatorSet
  trusted_height : IbcHeight
  trusted_validator_set : ValidatorSet
deriving DecidableEq

/-- tendermint `Vote` restricted to the fields the embedded code reads. -/
structure Vote where
  height : Nat
  round : Nat
  block_id : Option Nat
  timestamp : Option Nat
  validator_address : Nat
  validator_index : Nat
  signature : Option (List Nat)
deriving DecidableEq

/-- tendermint `vote::SignedVote`: a vote paired with its chain id and its
(present) signature. -/
structure SignedVote where
  vote : Vote
  chain_id : Nat
  signature : List Nat
deriving DecidableEq

/-- `SignedVote::from_vote(vote, chain_id)`: defined exactly when the vote
carries a signature. -/
def SignedVote.from_vote (v : Vote) (chain_id : Nat) : Option SignedVote :=
  match v.signature with
  | none => none
  | some s => some { vote := v, chain_id := chain_id, signature := s }

/-- Numeric stand-in for an optional field inside the canonical vote
encoding. -/
def encOpt : Option Nat → Nat
  | none => 0
  | some x => x + 1

/-- `SignedVote::sign_bytes()`: the canonical protobuf vote encoding is
abstracted to a flat list of the fields it serialises (type/height/round/
block id/timestamp/chain id); the embedded code never inspects these
bytes, it only forwards them. -/
def SignedVote.sign_bytes (sv : SignedVote) : List Nat :=
  [sv.vote.height, sv.vote.round, encOpt sv.vote.block_id,
    encOpt sv.vote.timestamp, sv.chain_id]

/-- `non_absent_vote` (client_message.rs:387-410). -/
def non_absent_vote (commit_sig : CommitSig) (validator_index : Nat) (commit : Commit) :
    Option Vote :=
  match commit_sig with
  | .absent => none
  | .commit validator_address timestamp signature =>
    some { height := commit.height, round := commit.round,
           block_id := some commit.block_id, timestamp := some timestamp,
           validator_address := validator_address,
           validator_index := validator_index, signature := signature }
  | .nil validator_address timestamp signature =>
    some { height := commit.height, round := commit.round,
           block_id := none, timestamp := some timestamp,
           validator_address := validator_address,
           validator_index := validator_index, signature := signature }

/-- The `ZKInput` record local to `get_zk_input`
(client_message.rs:182-188). -/
structure ZKInput where
  pub_key : List Nat
  signature : List Nat
  message : List Nat
  voting_power : Nat
deriving DecidableEq

/-- Stable insertion of `x` into a list already sorted by strictly
descending `key`; ties keep the earlier element first. -/
def insertDescBy (key : α → Nat) (x : α) : List α → List α
  | [] => [x]
  | y :: ys => if key y ≤ key x then x :: y :: ys else y :: insertDescBy key x ys

/-- Stable sort by descending `key`.  Rust's `slice::sort_by` with the
comparator `|a, b| key(b).cmp(&key(a))` is a stable sort for the same
total preorder, and stable sorts agree extensionally, so this insertion
sort computes exactly the Rust result. -/
def sortByKeyDesc (key : α → Nat) : List α → List α
  | [] => []
  | x :: xs => insertDescBy key x (sortByKeyDesc key xs)

/-- The `for (signature, vote) in non_absent_votes` loop of `get_zk_input`
(client_message.rs:194-261), fused with the lazy
`enumerate().flat_map(..)` iterator that feeds it (the Rust iterator is
lazy, so commit entries after an early `return Err` are never touched).
`seen` is the `seen_validators` hash set (modelled as a list queried for
membership), `acc` is `pre_input`.
`ValidatorIndex::try_from(idx).unwrap()` (line 198) panics for
`idx ≥ 2 ^ 31` because `ValidatorIndex` is bounded by `i32::MAX`.
The signature-verification call at lines 236-242 is performed and its
result discarded, exactly as in the source, whose `if ....is_err() {}`
has an empty body.  The `.unwrap()` on the `find` at line 252 is the
second `match` on the same lookup. -/
def zkLoop (verifier : PublicKey → List Nat → List Nat → Bool)
    (vs : ValidatorSet) (chain_id : Nat) (commit : Commit) :
    List (Nat × CommitSig) → List Nat → List ZKInput →
      RustResult TmError (List ZKInput)
  | [], _, acc => .ok acc
  | (idx, cs) :: rest, seen, acc =>
    if 2 ^ 31 ≤ idx then .panicked
    else
      match non_absent_vote cs idx commit with
      | none => zkLoop verifier vs chain_id commit rest seen acc
      | some vote =>
        if vote.validator_address ∈ seen then
          .err (.validation "validator seen twice")
        else
          match vs.validator vote.validator_address with
          | none =>
            zkLoop verifier vs chain_id commit rest (vote.validator_address :: seen) acc
          | some validator =>
            match SignedVote.from_vote vote chain_id with
            | none => .err (.validation "signed vote cannot be converted")
            | some signed_vote =>
              if ¬ cs.is_commit then
                zkLoop verifier vs chain_id commit rest (vote.validator_address :: seen) acc
              else
                let sign_bytes := signed_vote.sign_bytes
                let _sig_check := verifier validator.pub_key sign_bytes signed_vote.signature
                let zk0 : ZKInput :=
                  { pub_key := [], signature := signed_vote.signature,
                    message := sign_bytes, voting_power := validator.power }
                match vs.validators.find? (fun x => x.address == vote.validator_address) with
                | none => .panicked
                | some v2 =>
                  let zk :=
                    match v2.pub_key with
                    | .ed25519 e => { zk0 with pub_key := e }
                    | .other => zk0
                  zkLoop verifier vs chain_id commit rest
                    (vote.validator_address :: seen) (acc ++ [zk])

/-- `Header::get_zk_input` (client_message.rs:181-318).  The `1 << index`
in the bitmask loop is modelled with Rust release semantics (the shift
amount is masked to the word size). -/
def get_zk_input (verifier : PublicKey → List Nat → List Nat → Bool)
    (h : Header) (size : Nat) :
    RustResult TmError (List (List Nat × List Nat × List Nat) × Nat) :=
  let validator_set := h.validator_set
  let signed_header := h.signed_header
  let total_voting_power := validator_set.total_voting_power
  match zkLoop verifier validator_set signed_header.header.chain_id
      signed_header.commit signed_header.commit.signatures.enum [] [] with
  | .panicked => .panicked
  | .err e => .err e
  | .ok pre_input =>
    if pre_input.length < size then
      .err (.validation "not enough validators have successfully signed")
    else
      let not_sorted_pre_input := pre_input
      let sorted := sortByKeyDesc (fun z => z.voting_power) pre_input
      let voting_power_amount_validator_size :=
        (sorted.take size).foldl (fun acc x => acc + x.voting_power) 0
      if voting_power_amount_validator_size * 2 ≤ total_voting_power * 3 then
        .err (.validation "voting power is not > 2/3 + 1")
      else
        let ret := (sorted.take size).map (fun z => (z.pub_key, z.signature, z.message))
        let validators := not_sorted_pre_input.map
          (fun e => if ret.any (fun x => x.1 == e.pub_key) then (1 : Nat) else 0)
        let bitmask := validators.enum.foldl
          (fun bitmask p => if p.2 == 1 then bitmask ||| (1 <<< (p.1 % 64)) else bitmask) 0
        .ok (ret, bitmask)

/-- `headers_compatible` (client_message.rs:321-339): the `Ordering` match
on the height comparison, written as nested conditionals. -/
def headers_compatible (header other : SignedHeader) : Bool :=
  let ibc_client_height := other.header.height
  let self_header_height := header.header.height
  if self_header_height = ibc_client_height then
    header.commit.block_id == other.commit.block_id
  else if ibc_client_height < self_header_height then
    decide (other.header.time < header.header.time)
  else
    decide (header.header.time < other.header.time)

/-- `RawHeader` (ibc-proto): each field is optional on the wire.  The
successful inner protobuf conversions are modelled as the identity, since
only field presence is at issue in the embedded `TryFrom`. -/
structure RawHeader where
  signed_header : Option SignedHeader
  validator_set : Option ValidatorSet
  trusted_height : Option IbcHeight
  trusted_validators : Option ValidatorSet
deriving DecidableEq

/-- `TryFrom<RawHeader> for Header` (client_message.rs:343-370): fields
are converted in declaration order and each missing field maps to its
typed error. -/
def Header.tryFromRaw (raw : RawHeader) : Except TmError Header :=
  match raw.signed_header with
  | none => .error .missing_signed_header
  | some sh =>
    match raw.validator_set with
    | none => .error .missing_validator_set
    | some vset =>
      match raw.trusted_height with
      | none => .error .missing_trusted_height
      | some th =>
        match raw.trusted_validators with
        | none => .error .missing_trusted_validator_set
        | some tvs =>
          .ok { signed_header := sh, validator_set := vset,
                trusted_height := th, trusted_validator_set := tvs }

/-- The `filter`/`flat_map` pipeline of
`collect_signatures_for_finalized_block` (hyperspace/cosmos utils.rs:30-49):
keep `BlockIdFlagCommit` entries, look their validator up by address, and
pair public key, signature and power.  The `_ => unreachable!()` arm fires
for a commit-flag entry without a signature. -/
def collectLoop (vs : ValidatorSet) :
    List CommitSig → RustResult TmError (List (PublicKey × List Nat × Nat))
  | [] => .ok []
  | cs :: rest =>
    if ¬ cs.is_commit then collectLoop vs rest
    else
      match cs with
      | .commit validator_address _ (some signature) =>
        (match vs.validators.find? (fun info => validator_address == info.address) with
         | none => collectLoop vs rest
         | some info =>
           match collectLoop vs rest with
           | .panicked => .panicked
           | .err e => .err e
           | .ok l => .ok ((info.pub_key, signature, info.power) :: l))
      | _ => .panicked

/-- `collect_signatures_for_finalized_block` (hyperspace/cosmos
utils.rs:17-79).  `verifier` is the `Verifier::verify` host function; the
message passed to it is the literal placeholder `vec![0u8]` from line 63. -/
def collect_signatures_for_finalized_block
    (verifier : PublicKey → List Nat → List Nat → Bool)
    (header : Header) (circuit_size : Nat) :
    RustResult TmError (Option (List (PublicKey × List Nat × List Nat))) :=
  let validator_set := header.validator_set
  let total_voting_power := validator_set.total_voting_power
  match collectLoop validator_set header.signed_header.commit.signatures with
  | .panicked => .panicked
  | .err e => .err e
  | .ok validator_info_signed_block =>
    let sorted := sortByKeyDesc (fun t => t.2.2) validator_info_signed_block
    let result := sorted.foldl
      (fun acc t =>
        if acc.1 * 3 > 2 * total_voting_power ∧ acc.2.length = circuit_size then acc
        else
          let msg : List Nat := [0]
          if verifier t.1 msg t.2.1 then
            (acc.1 + t.2.2, acc.2 ++ [(t.1, t.2.1, msg)])
          else acc)
      ((0 : Nat), ([] : List (PublicKey × List Nat × List Nat)))
    if result.1 * 3 > 2 * total_voting_power ∧ result.2.length = circuit_size then
      .ok (some result.2)
    else
      .ok none

/-- Addresses of the non-absent entries of a commit, in order. -/
def nonAbsentAddrs (sigs : List CommitSig) : List Nat :=
  sigs.filterMap CommitSig.addr?

/-- Projection of a successful `zkLoop` run to the (public key, voting
power) pairs it accumulated. -/
def zkOkPowers (r : RustResult TmError (List ZKInput)) : List (List Nat × Nat) :=
  match r with
  | .ok l => l.map (fun z => (z.pub_key, z.voting_power))
  | _ => []

/-! ### BEEFY MMR / authority-set verification

The crate implementing `BeefyLightClient::verify_mmr_root_with_proof` is
not under `src/`; only its tests (`src/src/tests.rs`) are.  The verifier
is therefore modelled from the spec (§4.4), with two points pinned by the
tests instead of the spec's words: the signature-count threshold check
runs before the authority-set-id check (the test
`should_fail_with_incomplete_signature_threshold` feeds
`validator_set_id = 3` and still expects `IncompleteSignatureThreshold`),
and an update whose `validator_set_id` matches neither authority set is
rejected with `InvalidMmrUpdate` (the test
`should_fail_with_invalid_validator_set_id` asserts exactly that error).
-/

/-- `BeefyNextAuthoritySet` (beefy_primitives::mmr): a merkle commitment
to one epoch's authority set. -/
structure BeefyNextAuthoritySet where
  id : Nat
  len : Nat
  root : Nat
deriving DecidableEq

/-- BEEFY light-client `ClientState`, as read by the tests
(`latest_beefy_height`, `mmr_root_hash`, `current_authorities`,
`next_authorities`). -/
structure ClientState where
  latest_beefy_height : Nat
  mmr_root_hash : List Nat
  current_authorities : BeefyNextAuthoritySet
  next_authorities : BeefyNextAuthoritySet
deriving DecidableEq

/-- `known_payload_ids::MMR_ROOT_ID = *b"mh"`. -/
def MMR_ROOT_ID : List Nat := [109, 104]

/-- `beefy_primitives::Commitment`; the payload is the id-to-bytes map. -/
structure Commitment where
  payload : List (List Nat × List Nat)
  block_number : Nat
  validator_set_id : Nat
deriving DecidableEq

structure SignatureWithAuthorityIndex where
  index : Nat
  signature : List Nat
deriving DecidableEq

structure SignedCommitment where
  commitment : Commitment
  signatures : List SignatureWithAuthorityIndex
deriving DecidableEq

/-- `beefy_primitives::mmr::MmrLeaf`. -/
structure MmrLeaf where
  version : Nat
  parent_number_and_hash : Nat × List Nat
  beefy_next_authority_set : BeefyNextAuthoritySet
  leaf_extra : List Nat
deriving DecidableEq

/-- `pallet_mmr_primitives::Proof`. -/
structure MmrProof where
  leaf_index : Nat
  leaf_count : Nat
  items : List (List Nat)
deriving DecidableEq

structure MmrUpdateProof where
  signed_commitment : SignedCommitment
  latest_mmr_leaf : MmrLeaf
  mmr_proof : MmrProof
  authority_proof : List (List Nat)
deriving DecidableEq

/-- The BEEFY light-client error type; constructors from the spec's error
taxonomy (§4.4). -/
inductive BeefyClientError where
  | IncompleteSignatureThreshold
  | InvalidMmrUpdate
  | InvalidAuthoritySetId
  | OutdatedCommitment
  | InvalidMmrProof
deriving DecidableEq

/-- Host cryptography of `BeefyLightClient::<Crypto>`: authority-set
membership checking, commitment-signature verification and MMR inclusion
checking, as boolean oracles. -/
structure Crypto where
  verify_authority_membership :
    BeefyNextAuthoritySet → List (List Nat) → SignatureWithAuthorityIndex → Bool
  verify_commitment_signature : Commitment → SignatureWithAuthorityIndex → Bool
  verify_mmr_inclusion : List Nat → MmrLeaf → MmrProof → Bool

/-- Modelled from the spec: §4.4 step 3's equal-weight quorum predicate,
`signer count > 2/3 of len` (each authority weighs `1/len`). -/
def validate_sigs_against_threshold (set : BeefyNextAuthoritySet) (sigs_len : Nat) : Bool :=
  decide (sigs_len * 3 > set.len * 2)

/-- Modelled from the spec: §4.4 step 2's choice of the authority set in
effect for a `validator_set_id` — `current` if the id matches it, `next`
otherwise (the caller has already rejected ids matching neither). -/
def chosen_authority_set (cs : ClientState) (vsid : Nat) : BeefyNextAuthoritySet :=
  if vsid = cs.current_authorities.id then cs.current_authorities
  else cs.next_authorities

/-- Modelled from the spec: `BeefyLightClient::verify_mmr_root_with_proof`
(spec §4.4); the implementation crate is not under `src/`.  Steps, in
order: reject a stale commitment (`OutdatedCommitment`, step 1); reject
when the provided signature count fails the threshold for both the
current and the next authority set (`IncompleteSignatureThreshold`, with
the pre-check placement pinned by the tests); reject a
`validator_set_id` matching neither set (`InvalidMmrUpdate`, error value
pinned by the tests); filter the signatures through membership and
signature verification and re-check the quorum of valid signers against
the chosen set (step 3); verify MMR inclusion of the leaf under the
commitment's `MMR_ROOT_ID` payload entry (step 4, `InvalidMmrProof`);
on success rotate the authority sets forward one epoch (step 5). -/
def verify_mmr_root_with_proof (c : Crypto) (cs : ClientState) (u : MmrUpdateProof) :
    Except BeefyClientError ClientState :=
  let vsid := u.signed_commitment.commitment.validator_set_id
  let sigs_len := u.signed_commitment.signatures.length
  if vsid < cs.current_authorities.id then
    .error .OutdatedCommitment
  else if ¬ (validate_sigs_against_threshold cs.current_authorities sigs_len ∨
      validate_sigs_against_threshold cs.next_authorities sigs_len) then
    .error .IncompleteSignatureThreshold
  else if vsid ≠ cs.current_authorities.id ∧ vsid ≠ cs.next_authorities.id then
    .error .InvalidMmrUpdate
  else
    let chosen := chosen_authority_set cs vsid
    let valid := u.signed_commitment.signatures.filter
      (fun s => c.verify_authority_membership chosen u.authority_proof s &&
        c.verify_commitment_signature u.signed_commitment.commitment s)
    if ¬ validate_sigs_against_threshold chosen valid.length then
      .error .IncompleteSignatureThreshold
    else
      match u.signed_commitment.commitment.payload.find? (fun p => p.1 == MMR_ROOT_ID) with
      | none => .error .InvalidMmrUpdate
      | some entry =>
        if ¬ c.verify_mmr_inclusion entry.2 u.latest_mmr_leaf u.mmr_proof then
          .error .InvalidMmrProof
        else
          .ok { latest_beefy_height := u.signed_commitment.commitment.block_number,
                mmr_root_hash := entry.2,
                current_authorities := cs.next_authorities,
                next_authorities := u.latest_mmr_leaf.beefy_next_authority_set }

/-- The relay loop's state update around the verifier
(src/src/tests.rs:76-78): on success the returned state replaces the old
one wholesale, on rejection the caller keeps its state. -/
def apply_mmr_update (c : Crypto) (cs : ClientState) (u : MmrUpdateProof) : ClientState :=
  match verify_mmr_root_with_proof c cs u with
  | .ok cs1 => cs1
  | .error _ => cs

/-! ### Packet timeout proof-height resolution -/

/-- `ibc::core::ics04_channel::packet::TimeoutVariant`. -/
inductive TimeoutVariant where
  | height
  | timestamp
  | both
deriving DecidableEq

/-- `Ord::min` on IBC heights (lexicographic on revision number then
revision height). -/
def IbcHeight.minH (a b : IbcHeight) : IbcHeight :=
  if b.revision_number < a.revision_number ∨
      (b.revision_number = a.revision_number ∧ b.revision_height < a.revision_height) then b
  else a

/-- `get_timeout_proof_height` (hyperspace/core packets/utils.rs:45-180).
`find_suitable` stands for `find_suitable_proof_height_for_client`, which
lives outside `src/`; it receives the arguments that vary between the
three branches (start height, optional timeout height, optional timeout
timestamp).  `timeout_variant` is the result of the (external)
`Packet::timeout_variant` call at line 57.  Timestamps and block times
are nanosecond counts; the `as u32`/`as u64` narrowing casts of the Rust
code appear as `% 2 ^ 32` / `% 2 ^ 64`, the `saturating_sub` calls are
`Nat` subtraction, and the `(source_timestamp - ...).ok()?` early return
is the explicit underflow test. -/
def get_timeout_proof_height
    (find_suitable : IbcHeight → Option IbcHeight → Option Nat → Option IbcHeight)
    (timeout_variant : TimeoutVariant)
    (source_height : IbcHeight) (source_timestamp : Nat)
    (sink_height : IbcHeight) (sink_timestamp : Nat)
    (packet_timeout_height : IbcHeight) (packet_timeout_timestamp : Nat)
    (packet_creation_height : Nat)
    (source_block_time sink_block_time : Nat) : Option IbcHeight :=
  match timeout_variant with
  | .height =>
    let start_height := packet_timeout_height
    find_suitable start_height (some start_height) none
  | .timestamp =>
    let timeout_ns := packet_timeout_timestamp
    let sink_ns := sink_timestamp
    if timeout_ns > sink_ns then none
    else
      let packet_lifetime_blocks_on_a :=
        source_height.revision_height - packet_creation_height
      let lifetime_dur := source_block_time * (packet_lifetime_blocks_on_a % 2 ^ 32)
      if source_timestamp < lifetime_dur then none
      else
        let packet_timestamp := source_timestamp - lifetime_dur
        let timeout_timestamp_relative := packet_timeout_timestamp - packet_timestamp
        let packet_lifetime_blocks_on_b := (lifetime_dur / sink_block_time) % 2 ^ 64
        let packet_height_on_b := sink_height.revision_height - packet_lifetime_blocks_on_b
        let timeout_block_on_b :=
          (packet_height_on_b + (timeout_timestamp_relative / sink_block_time) % 2 ^ 64) - 1
        let start_height : IbcHeight :=
          { revision_number := sink_height.revision_number,
            revision_height := timeout_block_on_b }
        find_suitable start_height none (some packet_timeout_timestamp)
  | .both =>
    let timeout_ns := packet_timeout_timestamp
    let sink_ns := sink_timestamp
    if timeout_ns > sink_ns then none
    else
      let packet_lifetime_blocks_on_a :=
        source_height.revision_height - packet_creation_height
      let lifetime_dur := source_block_time * (packet_lifetime_blocks_on_a % 2 ^ 32)
      if source_timestamp < lifetime_dur then none
      else
        let packet_timestamp := source_timestamp - lifetime_dur
        let timeout_timestamp_relative := packet_timeout_timestamp - packet_timestamp
        let packet_lifetime_blocks_on_b := (lifetime_dur / sink_block_time) % 2 ^ 64
        let packet_height_on_b := sink_height.revision_height - packet_lifetime_blocks_on_b
        let timeout_block_on_b :=
          (packet_height_on_b + (timeout_timestamp_relative / sink_block_time) % 2 ^ 64) - 1
        let start_height : IbcHeight :=
          IbcHeight.minH
            { revision_number := sink_height.revision_number,
              revision_height := timeout_block_on_b }
            packet_timeout_height
        find_suitable start_height (some packet_timeout_height)
          (some packet_timeout_timestamp)

/-! ### Concrete fixtures used by the claim theorems and witnesses -/

/-- One honest validator with power 3 that signed; the whole voting power
participates. -/
def c1Header : Header :=
  { signed_header :=
      { header := { chain_id := 4, height := 5, time := 0 },
        commit :=
          { height := 5, round := 0, block_id := 3,
            signatures := [CommitSig.commit 1 0 (some [9])] } },
    validator_set :=
      { validators := [{ address := 1, pub_key := .ed25519 [7], power := 3 }] },
    trusted_height := { revision_number := 0, revision_height := 1 },
    trusted_validator_set :=
      { validators := [{ address := 1, pub_key := .ed25519 [7], power := 3 }] } }

/-- A commit carrying two non-absent votes with the same validator
address. -/
def c2Header : Header :=
  { signed_header :=
      { header := { chain_id := 4, height := 5, time := 0 },
        commit :=
          { height := 5, round := 0, block_id := 3,
            signatures := [CommitSig.commit 1 0 (some [9]), CommitSig.commit 1 0 (some [8])] } },
    validator_set :=
      { validators := [{ address := 1, pub_key := .ed25519 [7], power := 3 }] },
    trusted_height := { revision_number := 0, revision_height := 1 },
    trusted_validator_set :=
      { validators := [{ address := 1, pub_key := .ed25519 [7], power := 3 }] } }

/-- Two validators; in the claim-C3 scenario validator 2's signature
fails cryptographic verification. -/
def c3Header : Header :=
  { signed_header :=
      { header := { chain_id := 0, height := 5, time := 0 },
        commit :=
          { height := 5, round := 0, block_id := 3,
            signatures := [CommitSig.commit 1 0 (some [11]), CommitSig.commit 2 0 (some [12])] } },
    validator_set :=
      { validators := [{ address := 1, pub_key := .ed25519 [4], power := 20 },
          { address := 2, pub_key := .ed25519 [6], power := 7 }] },
    trusted_height := { revision_number := 0, revision_height := 1 },
    trusted_validator_set :=
      { validators := [{ address := 1, pub_key := .ed25519 [4], power := 20 },
          { address := 2, pub_key := .ed25519 [6], power := 7 }] } }

/-- A commit with `2 ^ 31 + 1` signature slots, addresses pairwise
distinct, over an empty validator set. -/
def c8BigHeader : Header :=
  { signed_header :=
      { header := { chain_id := 0, height := 1, time := 0 },
        commit :=
          { height := 1, round := 0, block_id := 0,
            signatures := (List.range (2 ^ 31 + 1)).map
              (fun i => CommitSig.commit i 0 (some [0])) } },
    validator_set := { validators := [] },
    trusted_height := { revision_number := 0, revision_height := 1 },
    trusted_validator_set := { validators := [] } }

/-- Host crypto whose three checks all accept. -/
def trueCrypto : Crypto :=
  { verify_authority_membership := fun _ _ _ => true,
    verify_commitment_signature := fun _ _ => true,
    verify_mmr_inclusion := fun _ _ _ => true }

/-- Genesis BEEFY client state of the spec's end-to-end scenario (§8):
`current.id = 0`, `next.id = 1`, five authorities each. -/
def beefyGenesis : ClientState :=
  { latest_beefy_height := 0, mmr_root_hash := [],
    current_authorities := { id := 0, len := 5, root := 0 },
    next_authorities := { id := 1, len := 5, root := 0 } }

/-- A well-formed update signed by all five current authorities
(`validator_set_id = 0`). -/
def beefyUpdate0 : MmrUpdateProof :=
  { signed_commitment :=
      { commitment :=
          { payload := [(MMR_ROOT_ID, [1, 2])], block_number := 10, validator_set_id := 0 },
        signatures := [{ index := 0, signature := [0] }, { index := 1, signature := [0] },
          { index := 2, signature := [0] }, { index := 3, signature := [0] },
          { index := 4, signature := [0] }] },
    latest_mmr_leaf :=
      { version := 0, parent_number_and_hash := (0, []),
        beefy_next_authority_set := { id := 2, len := 5, root := 0 }, leaf_extra := [] },
    mmr_proof := { leaf_index := 0, leaf_count := 0, items := [] },
    authority_proof := [] }

/-- The client state produced by verifying `beefyUpdate0` from
`beefyGenesis`. -/
def beefyNext0 : ClientState :=
  { latest_beefy_height := 10, mmr_root_hash := [1, 2],
    current_authorities := { id := 1, len := 5, root := 0 },
    next_authorities := { id := 2, len := 5, root := 0 } }

/-- The update of the test `should_fail_with_invalid_validator_set_id`
(src/src/tests.rs:150-192): `validator_set_id = 3`, five signatures. -/
def beefyBadIdUpdate : MmrUpdateProof :=
  { signed_commitment :=
      { commitment :=
          { payload := [(MMR_ROOT_ID, List.replicate 32 0)], block_number := 0,
            validator_set_id := 3 },
        signatures := List.replicate 5 { index := 0, signature := List.replicate 65 0 } },
    latest_mmr_leaf :=
      { version := 0, parent_number_and_hash := (0, []),
        beefy_next_authority_set := { id := 0, len := 0, root := 0 }, leaf_extra := [] },
    mmr_proof := { leaf_index := 0, leaf_count := 0, items := [] },
    authority_proof := [] }

/-- A matching-id update carrying only three signatures, below the
strict two-thirds threshold of five authorities. -/
def beefyThinUpdate : MmrUpdateProof :=
  { signed_commitment :=
      { commitment :=
          { payload := [(MMR_ROOT_ID, [1, 2])], block_number := 10, validator_set_id := 0 },
        signatures := [{ index := 0, signature := [0] }, { index := 1, signature := [0] },
          { index := 2, signature := [0] }] },
    latest_mmr_leaf :=
      { version := 0, parent_number_and_hash := (0, []),
        beefy_next_authority_set := { id := 2, len := 5, root := 0 }, leaf_extra := [] },
    mmr_proof := { leaf_index := 0, leaf_count := 0, items := [] },
    authority_proof := [] }

/-! ### Helper lemmas about `List.enumFrom` -/

theorem enumFrom_fst_lt {α : Type} :
    ∀ (l : List α) (i : Nat) (p : Nat × α), p ∈ List.enumFrom i l → p.1 < i + l.length := by
  intro l
  induction l with
  | nil => intro i p h; simp [List.enumFrom] at h
  | cons x xs ih =>
    intro i p h
    simp only [List.enumFrom, List.mem_cons] at h
    rcases h with h | h
    · subst h; simp
    · have := ih (i + 1) p h
      simp only [List.length_cons]
      omega

theorem enumFrom_snd_mem {α : Type} :
    ∀ (l : List α) (i : Nat) (p : Nat × α), p ∈ List.enumFrom i l → p.2 ∈ l := by
  intro l
  induction l with
  | nil => intro i p h; simp [List.enumFrom] at h
  | cons x xs ih =>
    intro i p h
    simp only [List.enumFrom, List.mem_cons] at h
    rcases h with h | h
    · subst h; simp
    · exact List.mem_cons_of_mem _ (ih (i + 1) p h)

theorem filterMap_enumFrom {α β : Type} (f : α → Option β) :
    ∀ (l : List α) (i : Nat),
      (List.enumFrom i l).filterMap (fun p => f p.2) = l.filterMap f := by
  intro l
  induction l with
  | nil => intro i; rfl
  | cons x xs ih =>
    intro i
    simp only [List.enumFrom, List.filterMap_cons]
    cases f x with
    | none => exact ih (i + 1)
    | some b => rw [ih (i + 1)]

theorem enumFrom_map {α β : Type} (f : α → β) :
    ∀ (l : List α) (i : Nat),
      List.enumFrom i (l.map f) = (List.enumFrom i l).map (fun p => (p.1, f p.2)) := by
  intro l
  induction l with
  | nil => intro i; rfl
  | cons x xs ih =>
    intro i
    simp only [List.map_cons, List.enumFrom]
    rw [ih (i + 1)]

theorem enumFrom_range' :
    ∀ (n k : Nat),
      List.enumFrom k (List.range' k n 1) = (List.range' k n 1).map (fun i => (i, i)) := by
  intro n
  induction n with
  | zero => intro k; rfl
  | succ m ih =>
    intro k
    show List.enumFrom k (k :: List.range' (k + 1) m 1) = _
    simp only [List.enumFrom, List.map_cons]
    rw [ih (k + 1)]
    rfl

theorem enum_map_range {α : Type} (g : Nat → α) (n : Nat) :
    ((List.range n).map g).enum = (List.range n).map (fun i => (i, g i)) := by
  rw [List.range_eq_range']
  show List.enumFrom 0 ((List.range' 0 n 1).map g) = _
  rw [enumFrom_map, enumFrom_range', List.map_map]
  rfl

/-! ### Helper lemmas about `zkLoop` -/

theorem seen_step {A seen : List Nat} {a : Nat} (hmem : a ∉ seen)
    (hbad : ¬ ((a :: A).Nodup ∧ ∀ x ∈ a :: A, x ∉ seen)) :
    ¬ (A.Nodup ∧ ∀ x ∈ A, x ∉ a :: seen) := by
  rintro ⟨h1, h2⟩
  apply hbad
  refine ⟨List.nodup_cons.mpr ⟨fun ha => (h2 a ha) (by simp), h1⟩, ?_⟩
  intro x hx
  rcases List.mem_cons.mp hx with rfl | hx1
  · exact hmem
  · intro hxs
    exact (h2 x hx1) (by simp [hxs])

/-- A duplicated non-absent validator address makes the `get_zk_input`
loop return the hard `"validator seen twice"` validation error, provided
the loop does not die earlier on an index overflow or an unconvertible
vote. -/
theorem zkLoop_dup_err (verifier : PublicKey → List Nat → List Nat → Bool)
    (vs : ValidatorSet) (chain_id : Nat) (commit : Commit) :
    ∀ (l : List (Nat × CommitSig)) (seen : List Nat) (acc : List ZKInput),
      (∀ p ∈ l, p.1 < 2 ^ 31) →
      (∀ p ∈ l, p.2.sigPresent = true) →
      ¬ ((l.filterMap (fun p => p.2.addr?)).Nodup ∧
          ∀ a ∈ l.filterMap (fun p => p.2.addr?), a ∉ seen) →
      zkLoop verifier vs chain_id commit l seen acc =
        .err (.validation "validator seen twice") := by
  intro l
  induction l with
  | nil =>
    intro seen acc _ _ hbad
    exact absurd ⟨by simp, by simp⟩ hbad
  | cons hd rest ih =>
    obtain ⟨idx, cs⟩ := hd
    intro seen acc hidx hsig hbad
    have hidx0 : idx < 2 ^ 31 := hidx (idx, cs) (by simp)
    have hidxr : ∀ p ∈ rest, p.1 < 2 ^ 31 := fun p hp => hidx p (by simp [hp])
    have hsigr : ∀ p ∈ rest, p.2.sigPresent = true := fun p hp => hsig p (by simp [hp])
    cases cs with
    | absent =>
      have e1 : List.filterMap (fun p => p.2.addr?) ((idx, CommitSig.absent) :: rest) =
          rest.filterMap (fun p => p.2.addr?) := by
        simp [List.filterMap_cons, CommitSig.addr?]
      rw [e1] at hbad
      rw [zkLoop, if_neg (by omega)]
      exact ih seen acc hidxr hsigr hbad
    | commit a ts sig =>
      have hs : sig.isSome := hsig (idx, .commit a ts sig) (by simp)
      obtain ⟨s, rfl⟩ := Option.isSome_iff_exists.mp hs
      have e1 : List.filterMap (fun p => p.2.addr?)
            ((idx, CommitSig.commit a ts (some s)) :: rest) =
          a :: rest.filterMap (fun p => p.2.addr?) := by
        simp [List.filterMap_cons, CommitSig.addr?]
      rw [e1] at hbad
      rw [zkLoop, if_neg (by omega)]
      simp only [non_absent_vote]
      by_cases hmem : a ∈ seen
      · rw [if_pos hmem]
      · rw [if_neg hmem]
        have hbad1 := seen_step hmem hbad
        cases hv : vs.validator a with
        | none =>
          simp only [hv]
          exact ih (a :: seen) acc hidxr hsigr hbad1
        | some validator =>
          simp only [hv]
          simp only [SignedVote.from_vote]
          rw [if_neg (by simp [CommitSig.is_commit])]
          rw [ValidatorSet.validator] at hv
          simp only [hv]
          exact ih (a :: seen) _ hidxr hsigr hbad1
    | nil a ts sig =>
      have hs : sig.isSome := hsig (idx, .nil a ts sig) (by simp)
      obtain ⟨s, rfl⟩ := Option.isSome_iff_exists.mp hs
      have e1 : List.filterMap (fun p => p.2.addr?)
            ((idx, CommitSig.nil a ts (some s)) :: rest) =
          a :: rest.filterMap (fun p => p.2.addr?) := by
        simp [List.filterMap_cons, CommitSig.addr?]
      rw [e1] at hbad
      rw [zkLoop, if_neg (by omega)]
      simp only [non_absent_vote]
      by_cases hmem : a ∈ seen
      · rw [if_pos hmem]
      · rw [if_neg hmem]
        have hbad1 := seen_step hmem hbad
        cases hv : vs.validator a with
        | none =>
          simp only [hv]
          exact ih (a :: seen) acc hidxr hsigr hbad1
        | some validator =>
          simp only [hv]
          simp only [SignedVote.from_vote]
          rw [if_pos (by simp [CommitSig.is_commit])]
          exact ih (a :: seen) acc hidxr hsigr hbad1

/-- The loop of `get_zk_input` cannot panic while every enumerated index
fits in an `i32`: the only other `unwrap` (client_message.rs:252) repeats
a lookup that already succeeded. -/
theorem zkLoop_ne_panicked (verifier : PublicKey → List Nat → List Nat → Bool)
    (vs : ValidatorSet) (chain_id : Nat) (commit : Commit) :
    ∀ (l : List (Nat × CommitSig)) (seen : List Nat) (acc : List ZKInput),
      (∀ p ∈ l, p.1 < 2 ^ 31) →
      zkLoop verifier vs chain_id commit l seen acc ≠ .panicked := by
  intro l
  induction l with
  | nil => intro seen acc _; rw [zkLoop]; intro h; cases h
  | cons hd rest ih =>
    obtain ⟨idx, cs⟩ := hd
    intro seen acc hidx
    have hidx0 : idx < 2 ^ 31 := hidx (idx, cs) (by simp)
    have hidxr : ∀ p ∈ rest, p.1 < 2 ^ 31 := fun p hp => hidx p (by simp [hp])
    rw [zkLoop, if_neg (by omega)]
    cases cs with
    | absent =>
      simp only [non_absent_vote]
      exact ih seen acc hidxr
    | commit a ts sig =>
      simp only [non_absent_vote]
      by_cases hmem : a ∈ seen
      · rw [if_pos hmem]; intro h; cases h
      · rw [if_neg hmem]
        cases hv : vs.validator a with
        | none => simp only [hv]; exact ih _ _ hidxr
        | some validator =>
          simp only [hv]
          cases sig with
          | none => simp only [SignedVote.from_vote]; intro h; cases h
          | some s =>
            simp only [SignedVote.from_vote]
            rw [if_neg (by simp [CommitSig.is_commit])]
            rw [ValidatorSet.validator] at hv
            simp only [hv]
            exact ih _ _ hidxr
    | nil a ts sig =>
      simp only [non_absent_vote]
      by_cases hmem : a ∈ seen
      · rw [if_pos hmem]; intro h; cases h
      · rw [if_neg hmem]
        cases hv : vs.validator a with
        | none => simp only [hv]; exact ih _ _ hidxr
        | some validator =>
          simp only [hv]
          cases sig with
          | none => simp only [SignedVote.from_vote]; intro h; cases h
          | some s =>
            simp only [SignedVote.from_vote]
            rw [if_pos (by simp [CommitSig.is_commit])]
            exact ih _ _ hidxr

/-- Over an empty validator set, a block of distinct fresh commit-flagged
entries with small indices is skipped entirely (every lookup fails), and
the loop moves on having only recorded the addresses as seen. -/
theorem zkLoop_empty_vs_append (verifier : PublicKey → List Nat → List Nat → Bool)
    (vs : ValidatorSet) (chain_id : Nat) (commit : Commit) :
    ∀ (l1 : List (Nat × CommitSig)) (seen : List Nat) (acc : List ZKInput)
      (l2 : List (Nat × CommitSig)),
      (∀ p ∈ l1, p.1 < 2 ^ 31) →
      (l1.filterMap (fun p => p.2.addr?)).Nodup →
      (∀ a ∈ l1.filterMap (fun p => p.2.addr?), a ∉ seen) →
      vs.validators = [] →
      zkLoop verifier vs chain_id commit (l1 ++ l2) seen acc =
        zkLoop verifier vs chain_id commit l2
          ((l1.filterMap (fun p => p.2.addr?)).reverse ++ seen) acc := by
  intro l1
  induction l1 with
  | nil => intro seen acc l2 _ _ _ _; simp
  | cons hd rest ih =>
    obtain ⟨idx, cs⟩ := hd
    intro seen acc l2 hidx hnd hdis hvs
    have hidx0 : idx < 2 ^ 31 := hidx (idx, cs) (by simp)
    have hidxr : ∀ p ∈ rest, p.1 < 2 ^ 31 := fun p hp => hidx p (by simp [hp])
    have hlook : ∀ a, vs.validator a = none := by
      intro a; rw [ValidatorSet.validator, hvs]; rfl
    cases cs with
    | absent =>
      have e1 : List.filterMap (fun p => p.2.addr?) ((idx, CommitSig.absent) :: rest) =
          rest.filterMap (fun p => p.2.addr?) := by
        simp [List.filterMap_cons, CommitSig.addr?]
      rw [e1] at hnd hdis ⊢
      show zkLoop verifier vs chain_id commit ((idx, .absent) :: (rest ++ l2)) seen acc = _
      rw [zkLoop, if_neg (by omega)]
      exact ih seen acc l2 hidxr hnd hdis hvs
    | commit a ts sig =>
      have e1 : List.filterMap (fun p => p.2.addr?) ((idx, CommitSig.commit a ts sig) :: rest) =
          a :: rest.filterMap (fun p => p.2.addr?) := by
        simp [List.filterMap_cons, CommitSig.addr?]
      rw [e1] at hnd hdis ⊢
      show zkLoop verifier vs chain_id commit ((idx, .commit a ts sig) :: (rest ++ l2)) seen acc = _
      rw [zkLoop, if_neg (by omega)]
      simp only [non_absent_vote]
      have hmem : a ∉ seen := hdis a (by simp)
      rw [if_neg hmem]
      rw [hlook a]
      have hnd1 : (rest.filterMap (fun p => p.2.addr?)).Nodup := (List.nodup_cons.mp hnd).2
      have hfresh : a ∉ rest.filterMap (fun p => p.2.addr?) := (List.nodup_cons.mp hnd).1
      have hdis1 : ∀ x ∈ rest.filterMap (fun p => p.2.addr?), x ∉ a :: seen := by
        intro x hx hxs
        rcases List.mem_cons.mp hxs with rfl | hx2
        · exact hfresh hx
        · exact hdis x (by simp [hx]) hx2
      rw [ih (a :: seen) acc l2 hidxr hnd1 hdis1 hvs]
      simp [List.reverse_cons, List.append_assoc]
    | nil a ts sig =>
      have e1 : List.filterMap (fun p => p.2.addr?) ((idx, CommitSig.nil a ts sig) :: rest) =
          a :: rest.filterMap (fun p => p.2.addr?) := by
        simp [List.filterMap_cons, CommitSig.addr?]
      rw [e1] at hnd hdis ⊢
      show zkLoop verifier vs chain_id commit ((idx, .nil a ts sig) :: (rest ++ l2)) seen acc = _
      rw [zkLoop, if_neg (by omega)]
      simp only [non_absent_vote]
      have hmem : a ∉ seen := hdis a (by simp)
      rw [if_neg hmem]
      rw [hlook a]
      have hnd1 : (rest.filterMap (fun p => p.2.addr?)).Nodup := (List.nodup_cons.mp hnd).2
      have hfresh : a ∉ rest.filterMap (fun p => p.2.addr?) := (List.nodup_cons.mp hnd).1
      have hdis1 : ∀ x ∈ rest.filterMap (fun p => p.2.addr?), x ∉ a :: seen := by
        intro x hx hxs
        rcases List.mem_cons.mp hxs with rfl | hx2
        · exact hfresh hx
        · exact hdis x (by simp [hx]) hx2
      rw [ih (a :: seen) acc l2 hidxr hnd1 hdis1 hvs]
      simp [List.reverse_cons, List.append_assoc]

/-- A panicking run of the fused loop makes `get_zk_input` panic; stated
for an abstract header so that unfolding `get_zk_input` never exposes the
match scrutinee together with a concrete commit. -/
theorem get_zk_input_panicked (verifier : PublicKey → List Nat → List Nat → Bool)
    (h : Header) (size : Nat)
    (hzk : zkLoop verifier h.validator_set h.signed_header.header.chain_id
      h.signed_header.commit h.signed_header.commit.signatures.enum [] [] = .panicked) :
    get_zk_input verifier h size = .panicked := by
  simp only [get_zk_input]
  rw [hzk]

/-! ### Claim theorems -/

/-- C1: the claim says verification accepts iff the accumulated power of
the valid signers times 3 exceeds the total power times 2.  The quorum
comparison in `get_zk_input` (client_message.rs:286) is transposed
(`amount * 2 <= total * 3` instead of `amount * 3 <= total * 2`), so a
header in which the whole voting power signs — accumulated power 3 of
total 3, well above two thirds — is still rejected with the quorum error,
while the cosmos-side collector, whose comparison
`acc * 3 > 2 * total_voting_power` follows the spec, accepts the very
same header. -/
theorem C1_quorum_comparison_transposed :
    get_zk_input (fun _ _ _ => true) c1Header 1 =
        .err (.validation "voting power is not > 2/3 + 1") ∧
      c1Header.validator_set.total_voting_power = 3 ∧
      collect_signatures_for_finalized_block (fun _ _ _ => true) c1Header 1 =
        .ok (some [(.ed25519 [7], [9], [0])]) :=
  ⟨by decide, by decide, by decide⟩

/-- C2: a commit containing two non-absent votes with the same validator
address makes `get_zk_input` fail with the hard `"validator seen twice"`
validation error — the duplicate is neither skipped nor double-counted —
provided every non-absent vote carries a signature (otherwise the earlier
conversion error fires first) and the commit fits the `i32` index bound. -/
theorem C2_duplicate_vote_is_hard_error
    (verifier : PublicKey → List Nat → List Nat → Bool) (h : Header) (size : Nat)
    (hlen : h.signed_header.commit.signatures.length ≤ 2 ^ 31)
    (hsig : ∀ cs ∈ h.signed_header.commit.signatures, cs.sigPresent = true)
    (hdup : ¬ (nonAbsentAddrs h.signed_header.commit.signatures).Nodup) :
    get_zk_input verifier h size = .err (.validation "validator seen twice") := by
  have hloop : zkLoop verifier h.validator_set h.signed_header.header.chain_id
      h.signed_header.commit h.signed_header.commit.signatures.enum [] [] =
      .err (.validation "validator seen twice") := by
    apply zkLoop_dup_err
    · intro p hp
      have h1 := enumFrom_fst_lt h.signed_header.commit.signatures 0 p hp
      omega
    · intro p hp
      exact hsig p.2 (enumFrom_snd_mem h.signed_header.commit.signatures 0 p hp)
    · rintro ⟨h1, _⟩
      apply hdup
      rw [nonAbsentAddrs, ← filterMap_enumFrom CommitSig.addr? h.signed_header.commit.signatures 0]
      exact h1
  simp only [get_zk_input]
  rw [hloop]

theorem C2_duplicate_vote_is_hard_error_witness :
    get_zk_input (fun _ _ _ => true) c2Header 0 =
      .err (.validation "validator seen twice") :=
  C2_duplicate_vote_is_hard_error (fun _ _ _ => true) c2Header 0
    (by decide) (by decide) (by decide)

/-- C3: the claim says a signer whose signature fails cryptographic
verification contributes zero accumulated power and is excluded from the
collected signer set.  In `get_zk_input` the verification call
(client_message.rs:236-242) has an empty `if ... .is_err() {}` body, so
for any verifier that rejects validator 2's key the loop still collects
validator 2 with its full power 7 — the first conjunct holds for every
verifier rejecting that key.  The cosmos-side collector
(hyperspace/cosmos utils.rs:64-68) implements the claimed behaviour: the
same failing signer is excluded there and the batch still succeeds on the
remaining quorum. -/
theorem C3_failed_signature_still_counted
    (verifier : PublicKey → List Nat → List Nat → Bool)
    (hbad : ∀ m s, verifier (.ed25519 [6]) m s = false)
    (hok : ∀ m s, verifier (.ed25519 [4]) m s = true) :
    zkOkPowers (zkLoop verifier c3Header.validator_set
        c3Header.signed_header.header.chain_id c3Header.signed_header.commit
        c3Header.signed_header.commit.signatures.enum [] []) = [([4], 20), ([6], 7)] ∧
    collect_signatures_for_finalized_block verifier c3Header 1 =
      .ok (some [(.ed25519 [4], [11], [0])]) := by
  constructor
  · rfl
  · simp only [collect_signatures_for_finalized_block]
    rw [show collectLoop c3Header.validator_set c3Header.signed_header.commit.signatures =
      .ok [(.ed25519 [4], [11], 20), (.ed25519 [6], [12], 7)] from rfl]
    simp only [show sortByKeyDesc (fun t : PublicKey × List Nat × Nat => t.2.2)
        [(PublicKey.ed25519 [4], [11], 20), (PublicKey.ed25519 [6], [12], 7)] =
        [(PublicKey.ed25519 [4], [11], 20), (PublicKey.ed25519 [6], [12], 7)] from rfl,
      List.foldl_cons, List.foldl_nil]
    rw [hok, hbad]
    decide

theorem C3_failed_signature_still_counted_witness :
    zkOkPowers (zkLoop (fun pk _ _ => pk == .ed25519 [4]) c3Header.validator_set
        c3Header.signed_header.header.chain_id c3Header.signed_header.commit
        c3Header.signed_header.commit.signatures.enum [] []) = [([4], 20), ([6], 7)] ∧
    collect_signatures_for_finalized_block (fun pk _ _ => pk == .ed25519 [4]) c3Header 1 =
      .ok (some [(.ed25519 [4], [11], [0])]) :=
  C3_failed_signature_still_counted (fun pk _ _ => pk == .ed25519 [4])
    (fun _ _ => rfl) (fun _ _ => rfl)

/-- C4: after a successful BEEFY MMR-root verification the returned
client state has latest height equal to the commitment's block number,
MMR root hash equal to the payload entry under `MMR_ROOT_ID`, current
authorities equal to the previous state's next authorities, and next
authorities equal to the MMR leaf's `beefy_next_authority_set` — the
authority sets rotate forward exactly one epoch per accepted update. -/
theorem C4_client_state_rotation (c : Crypto) (cs : ClientState) (u : MmrUpdateProof)
    (cs1 : ClientState)
    (hok : verify_mmr_root_with_proof c cs u = .ok cs1) :
    cs1.latest_beefy_height = u.signed_commitment.commitment.block_number ∧
    (u.signed_commitment.commitment.payload.find? (fun p => p.1 == MMR_ROOT_ID)).map Prod.snd =
      some cs1.mmr_root_hash ∧
    cs1.current_authorities = cs.next_authorities ∧
    cs1.next_authorities = u.latest_mmr_leaf.beefy_next_authority_set := by
  simp only [verify_mmr_root_with_proof] at hok
  split at hok
  · exact absurd hok (by simp)
  · split at hok
    · exact absurd hok (by simp)
    · split at hok
      · exact absurd hok (by simp)
      · split at hok
        · exact absurd hok (by simp)
        · split at hok
          · exact absurd hok (by simp)
          · rename_i entry heq
            split at hok
            · exact absurd hok (by simp)
            · injection hok with h
              subst h
              refine ⟨rfl, ?_, rfl, rfl⟩
              rw [heq]
              rfl

theorem C4_client_state_rotation_witness :
    verify_mmr_root_with_proof trueCrypto beefyGenesis beefyUpdate0 = .ok beefyNext0 ∧
    beefyNext0.latest_beefy_height = beefyUpdate0.signed_commitment.commitment.block_number ∧
    beefyNext0.current_authorities = beefyGenesis.next_authorities ∧
    beefyNext0.next_authorities = beefyUpdate0.latest_mmr_leaf.beefy_next_authority_set :=
  ⟨by decide,
    (C4_client_state_rotation trueCrypto beefyGenesis beefyUpdate0 beefyNext0 (by decide)).1,
    (C4_client_state_rotation trueCrypto beefyGenesis beefyUpdate0 beefyNext0 (by decide)).2.2.1,
    (C4_client_state_rotation trueCrypto beefyGenesis beefyUpdate0 beefyNext0 (by decide)).2.2.2⟩

/-- C5 counterexample: on the very input of the test
`should_fail_with_invalid_validator_set_id` (validator set id 3 against a
state whose sets have ids 0 and 1 — an unreachable jump), the verifier
reports `InvalidMmrUpdate`, not `InvalidAuthoritySetId` as the claim
states. -/
theorem C5_error_name_cex :
    verify_mmr_root_with_proof trueCrypto beefyGenesis beefyBadIdUpdate =
        .error .InvalidMmrUpdate ∧
      verify_mmr_root_with_proof trueCrypto beefyGenesis beefyBadIdUpdate ≠
        .error .InvalidAuthoritySetId :=
  ⟨by decide, by decide⟩

/-- C5 (amended): an update whose `validator_set_id` matches neither
authority set is rejected — never fast-forwarded — with the error
`InvalidMmrUpdate` (the test suite's expected error), provided the update
is not stale and its signature count passes the threshold pre-check that
runs first. -/
theorem C5_rejects_unreachable_set_id (c : Crypto) (cs : ClientState) (u : MmrUpdateProof)
    (h1 : cs.current_authorities.id ≤ u.signed_commitment.commitment.validator_set_id)
    (h2 : validate_sigs_against_threshold cs.current_authorities
        u.signed_commitment.signatures.length = true ∨
      validate_sigs_against_threshold cs.next_authorities
        u.signed_commitment.signatures.length = true)
    (h3 : u.signed_commitment.commitment.validator_set_id ≠ cs.current_authorities.id)
    (h4 : u.signed_commitment.commitment.validator_set_id ≠ cs.next_authorities.id) :
    verify_mmr_root_with_proof c cs u = .error .InvalidMmrUpdate := by
  simp only [verify_mmr_root_with_proof]
  rw [if_neg (by omega), if_neg (not_not_intro h2), if_pos ⟨h3, h4⟩]

theorem C5_rejects_unreachable_set_id_witness :
    verify_mmr_root_with_proof trueCrypto beefyGenesis beefyBadIdUpdate =
      .error .InvalidMmrUpdate :=
  C5_rejects_unreachable_set_id trueCrypto beefyGenesis beefyBadIdUpdate
    (by decide) (Or.inl (by decide)) (by decide) (by decide)

/-- C6: when the signature count of an update is not strictly greater
than two thirds of the chosen authority set's length (each authority
weighing `1/len`), verification fails with
`IncompleteSignatureThreshold`: either already at the pre-check, or at
the valid-signer quorum check, since the valid signers are a sublist of
the provided signatures.  The hypotheses pin down the chosen set: the
`validator_set_id` matches one of the two authority sets and the update
is not stale. -/
theorem C6_insufficient_signature_count (c : Crypto) (cs : ClientState) (u : MmrUpdateProof)
    (hvalid : u.signed_commitment.commitment.validator_set_id = cs.current_authorities.id ∨
      u.signed_commitment.commitment.validator_set_id = cs.next_authorities.id)
    (hfresh : cs.current_authorities.id ≤ u.signed_commitment.commitment.validator_set_id)
    (hthin : validate_sigs_against_threshold
        (chosen_authority_set cs u.signed_commitment.commitment.validator_set_id)
        u.signed_commitment.signatures.length = false) :
    verify_mmr_root_with_proof c cs u = .error .IncompleteSignatureThreshold := by
  have hthin2 : ¬ (u.signed_commitment.signatures.length * 3 >
      (chosen_authority_set cs u.signed_commitment.commitment.validator_set_id).len * 2) := by
    rw [validate_sigs_against_threshold] at hthin
    exact of_decide_eq_false hthin
  simp only [verify_mmr_root_with_proof]
  rw [if_neg (by omega)]
  by_cases hpre : (validate_sigs_against_threshold cs.current_authorities
      u.signed_commitment.signatures.length = true ∨
    validate_sigs_against_threshold cs.next_authorities
      u.signed_commitment.signatures.length = true)
  · have hid : ¬ (u.signed_commitment.commitment.validator_set_id ≠ cs.current_authorities.id ∧
        u.signed_commitment.commitment.validator_set_id ≠ cs.next_authorities.id) := by
      rintro ⟨ha, hb⟩
      rcases hvalid with hv | hv
      · exact ha hv
      · exact hb hv
    rw [if_neg (not_not_intro hpre), if_neg hid]
    have hth : ∀ (l : List SignatureWithAuthorityIndex),
        l.length ≤ u.signed_commitment.signatures.length →
        ¬ validate_sigs_against_threshold
            (chosen_authority_set cs u.signed_commitment.commitment.validator_set_id)
            l.length = true := by
      intro l hl hcon
      rw [validate_sigs_against_threshold] at hcon
      have := of_decide_eq_true hcon
      omega
    rw [if_pos (hth _ (List.length_filter_le _ _))]
  · rw [if_pos hpre]

theorem C6_insufficient_signature_count_witness :
    verify_mmr_root_with_proof trueCrypto beefyGenesis beefyThinUpdate =
      .error .IncompleteSignatureThreshold :=
  C6_insufficient_signature_count trueCrypto beefyGenesis beefyThinUpdate
    (Or.inl (by decide)) (by decide) (by decide)

/-- C9: verification is atomic with respect to the client state: a
rejected call leaves the relay loop's state exactly as it was, and an
accepted call replaces it wholesale with the single returned value. -/
theorem C9_atomic_state_update (c : Crypto) (cs : ClientState) (u : MmrUpdateProof) :
    (∀ e, verify_mmr_root_with_proof c cs u = .error e → apply_mmr_update c cs u = cs) ∧
    (∀ cs1, verify_mmr_root_with_proof c cs u = .ok cs1 → apply_mmr_update c cs u = cs1) := by
  constructor
  · intro e he
    rw [apply_mmr_update, he]
  · intro cs1 h1
    rw [apply_mmr_update, h1]

theorem C9_atomic_state_update_witness :
    apply_mmr_update trueCrypto beefyGenesis beefyBadIdUpdate = beefyGenesis ∧
    apply_mmr_update trueCrypto beefyGenesis beefyUpdate0 = beefyNext0 :=
  ⟨(C9_atomic_state_update trueCrypto beefyGenesis beefyBadIdUpdate).1
      .InvalidMmrUpdate (by decide),
    (C9_atomic_state_update trueCrypto beefyGenesis beefyUpdate0).2 beefyNext0 (by decide)⟩

/-- C7: the header-compatibility check is a trichotomy on heights —
equal heights are compatible exactly when the commit block ids agree, a
strictly greater height exactly when the timestamp is strictly greater,
and a strictly lesser height exactly when the timestamp is strictly
lesser. -/
theorem C7_headers_compatible_trichotomy (h o : SignedHeader) :
    (h.header.height = o.header.height →
      (headers_compatible h o = true ↔ h.commit.block_id = o.commit.block_id)) ∧
    (o.header.height < h.header.height →
      (headers_compatible h o = true ↔ o.header.time < h.header.time)) ∧
    (h.header.height < o.header.height →
      (headers_compatible h o = true ↔ h.header.time < o.header.time)) := by
  refine ⟨?_, ?_, ?_⟩
  · intro heq
    simp only [headers_compatible]
    rw [if_pos heq]
    simp
  · intro hlt
    simp only [headers_compatible]
    rw [if_neg (by omega), if_pos hlt]
    simp
  · intro hlt
    simp only [headers_compatible]
    rw [if_neg (by omega), if_neg (by omega)]
    simp

theorem C7_headers_compatible_trichotomy_witness :
    headers_compatible
      { header := { chain_id := 0, height := 5, time := 9 },
        commit := { height := 5, round := 0, block_id := 77, signatures := [] } }
      { header := { chain_id := 0, height := 5, time := 4 },
        commit := { height := 5, round := 0, block_id := 77, signatures := [] } } = true :=
  ((C7_headers_compatible_trichotomy _ _).1 rfl).mpr rfl

/-- C10: for a packet whose timeout variant is `Timestamp` or `Both`, if
the packet's timeout timestamp is strictly greater than the sink chain's
current timestamp — the timeout has not yet elapsed on the sink —
`get_timeout_proof_height` returns `none` without consulting the
proof-height search. -/
theorem C10_timeout_not_elapsed_none
    (find_suitable : IbcHeight → Option IbcHeight → Option Nat → Option IbcHeight)
    (tv : TimeoutVariant) (source_height : IbcHeight) (source_timestamp : Nat)
    (sink_height : IbcHeight) (sink_timestamp : Nat)
    (packet_timeout_height : IbcHeight) (packet_timeout_timestamp : Nat)
    (packet_creation_height source_block_time sink_block_time : Nat)
    (hvar : tv = .timestamp ∨ tv = .both)
    (hnot : sink_timestamp < packet_timeout_timestamp) :
    get_timeout_proof_height find_suitable tv source_height source_timestamp sink_height
      sink_timestamp packet_timeout_height packet_timeout_timestamp packet_creation_height
      source_block_time sink_block_time = none := by
  rcases hvar with rfl | rfl
  · simp only [get_timeout_proof_height]
    rw [if_pos hnot]
  · simp only [get_timeout_proof_height]
    rw [if_pos hnot]

theorem C10_timeout_not_elapsed_none_witness :
    get_timeout_proof_height
      (fun _ _ _ => some { revision_number := 0, revision_height := 0 }) .timestamp
      { revision_number := 0, revision_height := 0 } 0
      { revision_number := 0, revision_height := 0 } 5
      { revision_number := 0, revision_height := 0 } 10 0 1 1 = none :=
  C10_timeout_not_elapsed_none
    (fun _ _ _ => some { revision_number := 0, revision_height := 0 }) .timestamp
    { revision_number := 0, revision_height := 0 } 0
    { revision_number := 0, revision_height := 0 } 5
    { revision_number := 0, revision_height := 0 } 10 0 1 1 (Or.inl rfl) (by decide)

/-- C8 counterexample: `get_zk_input` is not panic-free on every
malformed input.  On a commit with `2 ^ 31 + 1` signature slots whose
validator lookups all fail (empty validator set), the enumeration reaches
index `2 ^ 31` and the `ValidatorIndex::try_from(idx).unwrap()` at
client_message.rs:198 panics instead of returning a typed error. -/
theorem C8_unbounded_commit_panics_cex :
    get_zk_input (fun _ _ _ => true) c8BigHeader 0 = .panicked := by
  apply get_zk_input_panicked
  simp only [c8BigHeader]
  rw [enum_map_range, List.range_succ]
  rw [List.map_append, List.map_append]
  rw [List.map_cons, List.map_cons, List.map_nil, List.map_nil]
  rw [zkLoop_empty_vs_append]
  · rw [zkLoop, if_pos (le_refl (2 ^ 31))]
  · intro p hp
    obtain ⟨i, hi, rfl⟩ := List.mem_map.mp hp
    simpa using List.mem_range.mp hi
  · rw [List.filterMap_map]
    rw [show ((fun p : Nat × CommitSig => p.2.addr?) ∘
        (fun i : Nat => ((i : Nat), CommitSig.commit i 0 (some [0])))) =
        (some : Nat → Option Nat) from rfl]
    rw [List.filterMap_some]
    exact List.nodup_range _
  · intro a ha
    exact List.not_mem_nil a
  · rfl

/-- C8 (amended): every missing field of a raw header maps to its typed
decode error, and `get_zk_input` never panics provided the commit has at
most `2 ^ 31` signature slots — beyond that bound the validator-index
conversion `unwrap` of client_message.rs:198 panics.  A failed validator
lookup itself never panics (the vote is skipped), and the guarded lookup
`unwrap` at client_message.rs:252 never fires. -/
theorem C8_typed_errors_and_bounded_no_panic :
    (∀ raw : RawHeader, raw.signed_header = none →
      Header.tryFromRaw raw = .error .missing_signed_header) ∧
    (∀ (raw : RawHeader) sh, raw.signed_header = some sh → raw.validator_set = none →
      Header.tryFromRaw raw = .error .missing_validator_set) ∧
    (∀ (raw : RawHeader) sh vs, raw.signed_header = some sh → raw.validator_set = some vs →
      raw.trusted_height = none → Header.tryFromRaw raw = .error .missing_trusted_height) ∧
    (∀ (raw : RawHeader) sh vs th, raw.signed_header = some sh → raw.validator_set = some vs →
      raw.trusted_height = some th → raw.trusted_validators = none →
      Header.tryFromRaw raw = .error .missing_trusted_validator_set) ∧
    (∀ (verifier : PublicKey → List Nat → List Nat → Bool) (h : Header) (size : Nat),
      h.signed_header.commit.signatures.length ≤ 2 ^ 31 →
      get_zk_input verifier h size ≠ .panicked) := by
  refine ⟨?_, ?_, ?_, ?_, ?_⟩
  · intro raw h1
    simp [Header.tryFromRaw, h1]
  · intro raw sh h1 h2
    simp [Header.tryFromRaw, h1, h2]
  · intro raw sh vs h1 h2 h3
    simp [Header.tryFromRaw, h1, h2, h3]
  · intro raw sh vs th h1 h2 h3 h4
    simp [Header.tryFromRaw, h1, h2, h3, h4]
  · intro verifier h size hlen hpan
    have hcond : ∀ p ∈ h.signed_header.commit.signatures.enum, p.1 < 2 ^ 31 := by
      intro p hp
      have := enumFrom_fst_lt h.signed_header.commit.signatures 0 p hp
      omega
    simp only [get_zk_input] at hpan
    rcases hres : zkLoop verifier h.validator_set h.signed_header.header.chain_id
        h.signed_header.commit h.signed_header.commit.signatures.enum [] [] with _ | e | pre
    · exact zkLoop_ne_panicked verifier h.validator_set h.signed_header.header.chain_id
        h.signed_header.commit h.signed_header.commit.signatures.enum [] [] hcond hres
    · rw [hres] at hpan
      cases hpan
    · rw [hres] at hpan
      simp only [] at hpan
      split at hpan
      · cases hpan
      · split at hpan
        · cases hpan
        · cases hpan

theorem C8_typed_errors_and_bounded_no_panic_witness :
    Header.tryFromRaw
        { signed_header := none, validator_set := none,
          trusted_height := none, trusted_validators := none } =
      .error .missing_signed_header ∧
    get_zk_input (fun _ _ _ => true)
        { signed_header :=
            { header := { chain_id := 0, height := 1, time := 0 },
              commit := { height := 1, round := 0, block_id := 0, signatures := [] } },
          validator_set := { validators := [] },
          trusted_height := { revision_number := 0, revision_height := 1 },
          trusted_validator_set := { validators := [] } } 0 ≠ .panicked :=
  ⟨C8_typed_errors_and_bounded_no_panic.1 _ rfl,
    C8_typed_errors_and_bounded_no_panic.2.2.2.2 (fun _ _ _ => true) _ 0 (by decide)⟩

end Centauri
